import Mathlib

/-!
Verification of the randomgen core against its specification.

The embedding covers:

* `src/randomgen/src/legacy/distributions-boxmuller.c` — the legacy
  distribution samplers (`legacy_gauss`, `legacy_standard_exponential`,
  `legacy_standard_gamma`, `legacy_chisquare`,
  `legacy_noncentral_chisquare`).  C doubles are modelled by `D`, an
  `Option ℚ` where `none` plays the role of IEEE NaN: every comparison
  involving NaN is false and arithmetic propagates NaN.  The
  transcendental functions (`sqrt`, `log`, `pow`) are abstract slots of a
  `MathFns` record, since the claims under check only concern branch
  structure, draw order and caching, never the numeric values of those
  functions.  The rejection loops of the C code are given explicit fuel
  and return `none` when the fuel or the uniform stream runs out.

* `src/randomgen/mt19937.pyx`, `src/randomgen/threefry32.pyx`,
  `src/randomgen/xoshiro256starstar.pyx` — the Python-level seed /
  state / jump / advance logic of the three bit generators.  The
  underlying C generator routines (`mt19937_jump`,
  `xoshiro256starstar_jump`, `threefry32_advance`, `mt19937_seed`,
  `mt19937_init_by_array`) and the entropy helpers are not part of the
  sources, so they are either taken as parameters or modelled from the
  specification (marked `Modelled from the spec:`).

Fallible Python methods return `Except (Err × St) St`: the error payload
carries the handle state at the moment the exception is raised, so
"raised before any state mutation" is the statement that the payload
equals the initial state.
-/

/-- Error kinds raised by the Python layer. -/
inductive Err where
  | valueError : Err
  | typeError : Err
  | indexError : Err
  | overflowError : Err
deriving DecidableEq

/-- A C double as used by the legacy distribution samplers: a rational
number, or `none` for IEEE NaN. -/
abbrev D := Option ℚ

instance : Add D := ⟨fun a b => match a, b with
  | some x, some y => some (x + y)
  | _, _ => none⟩

instance : Sub D := ⟨fun a b => match a, b with
  | some x, some y => some (x - y)
  | _, _ => none⟩

instance : Mul D := ⟨fun a b => match a, b with
  | some x, some y => some (x * y)
  | _, _ => none⟩

instance : Div D := ⟨fun a b => match a, b with
  | some x, some y => some (x / y)
  | _, _ => none⟩

instance : Neg D := ⟨fun a => match a with
  | some x => some (-x)
  | none => none⟩

instance (n : ℕ) : OfNat D n := ⟨some (OfNat.ofNat n)⟩

/-- IEEE `<` on doubles: false whenever one side is NaN. -/
def dlt : D → D → Bool
  | some x, some y => decide (x < y)
  | _, _ => false

/-- IEEE `<=` on doubles: false whenever one side is NaN. -/
def dle : D → D → Bool
  | some x, some y => decide (x ≤ y)
  | _, _ => false

/-- IEEE `>=` on doubles: false whenever one side is NaN. -/
def dge (a b : D) : Bool := dle b a

/-- IEEE `==` on doubles: false whenever one side is NaN. -/
def deq : D → D → Bool
  | some x, some y => decide (x = y)
  | _, _ => false

/-- The `npy_isnan` test. -/
def disnan : D → Bool
  | none => true
  | some _ => false

/-- Embed a C `long` into a double. -/
def dOfInt (i : ℤ) : D := some (i : ℚ)

/-- Abstract slots for the C math library functions used by the legacy
samplers.  The claims under check never depend on their values. -/
structure MathFns where
  sqrt : D → D
  log : D → D
  pow : D → D → D

/-- The augmented basic RNG of the legacy distribution layer
(`aug_brng_t`): the Box-Muller cache plus the stream of values the
handle's `next_double` slot will produce, in order. -/
structure Aug where
  has_gauss : Bool
  gauss : D
  stream : List D
deriving DecidableEq

/-- One call of `aug_state->basicrng->next_double` (`legacy_double` in
the C source): consume the head of the uniform stream. -/
def legacy_double (st : Aug) : Option (D × Aug) :=
  match st.stream with
  | [] => none
  | u :: rest => some (u, ⟨st.has_gauss, st.gauss, rest⟩)

/-- `legacy_gauss` from distributions-boxmuller.c: polar Box-Muller with
a cached second deviate.  The `do … while (r2 >= 1.0 || r2 == 0.0)`
rejection loop is given explicit fuel. -/
def legacy_gauss (m : MathFns) : ℕ → Aug → Option (D × Aug)
  | _, ⟨true, g, s⟩ => some (g, ⟨false, (0 : D), s⟩)
  | 0, ⟨false, _, _⟩ => none
  | fuel + 1, ⟨false, g, stream⟩ =>
    match stream with
    | u1 :: u2 :: rest =>
      let x1 : D := 2 * u1 - 1
      let x2 : D := 2 * u2 - 1
      let r2 : D := x1 * x1 + x2 * x2
      if dge r2 1 || deq r2 0 then legacy_gauss m fuel ⟨false, g, rest⟩
      else
        let f : D := m.sqrt (-(2 : D) * m.log r2 / r2)
        some (f * x2, ⟨true, f * x1, rest⟩)
    | _ => none

/-- `legacy_standard_exponential`: `-log(1.0 - legacy_double(...))`. -/
def legacy_standard_exponential (m : MathFns) (st : Aug) : Option (D × Aug) :=
  match legacy_double st with
  | none => none
  | some (u, st1) => some (-(m.log (1 - u)), st1)

/-- The `shape < 1` rejection loop of `legacy_standard_gamma`
(Ahrens-Dieter style): per trial one uniform `U` and one standard
exponential `V`; `U <= 1 - shape` selects between the two acceptance
tests. -/
def gamma_small_loop (m : MathFns) (shape : D) : ℕ → Aug → Option (D × Aug)
  | 0, _ => none
  | fuel + 1, st =>
    match legacy_double st with
    | none => none
    | some (U, st1) =>
      match legacy_standard_exponential m st1 with
      | none => none
      | some (V, st2) =>
        if dle U (1 - shape) then
          let X := m.pow U (1 / shape)
          if dle X V then some (X, st2) else gamma_small_loop m shape fuel st2
        else
          let Y : D := -(m.log ((1 - U) / shape))
          let X := m.pow (1 - shape + shape * Y) (1 / shape)
          if dle X (V + Y) then some (X, st2) else gamma_small_loop m shape fuel st2

/-- The inner `do { X = legacy_gauss(...); V = 1 + c*X; } while (V <= 0)`
loop of the Marsaglia-Tsang branch; returns the accepted `(X, V)`. -/
def gamma_inner (m : MathFns) (c : D) : ℕ → Aug → Option (D × D × Aug)
  | 0, _ => none
  | fuel + 1, st =>
    match legacy_gauss m (fuel + 1) st with
    | none => none
    | some (X, st1) =>
      let V : D := 1 + c * X
      if dle V 0 then gamma_inner m c fuel st1 else some (X, V, st1)

/-- The `shape > 1` outer loop of `legacy_standard_gamma`
(Marsaglia-Tsang squeeze): per outer trial the inner gauss loop and then
exactly one uniform `U`, with the squeeze test and the log acceptance
test in that order. -/
def gamma_large_loop (m : MathFns) (b c : D) : ℕ → Aug → Option (D × Aug)
  | 0, _ => none
  | fuel + 1, st =>
    match gamma_inner m c (fuel + 1) st with
    | none => none
    | some (X, V0, st1) =>
      let V : D := V0 * V0 * V0
      match legacy_double st1 with
      | none => none
      | some (U, st2) =>
        if dlt U (1 - (331 : D) / 10000 * (X * X) * (X * X)) then some (b * V, st2)
        else if dlt (m.log U) ((1 : D) / 2 * X * X + b * (1 - V + m.log V)) then
          some (b * V, st2)
        else gamma_large_loop m b c fuel st2

/-- `legacy_standard_gamma`: the four-way branch on the shape, in the
order of the C source (`== 1.0`, `== 0.0`, `< 1.0`, else). -/
def legacy_standard_gamma (m : MathFns) (fuel : ℕ) (shape : D) (st : Aug) :
    Option (D × Aug) :=
  if deq shape 1 then legacy_standard_exponential m st
  else if deq shape 0 then some ((0 : D), st)
  else if dlt shape 1 then gamma_small_loop m shape fuel st
  else
    let b : D := shape - (1 : D) / 3
    let c : D := (1 : D) / m.sqrt (9 * b)
    gamma_large_loop m b c fuel st

/-- `legacy_chisquare`: `2.0 * legacy_standard_gamma(aug, df / 2.0)`. -/
def legacy_chisquare (m : MathFns) (fuel : ℕ) (df : D) (st : Aug) :
    Option (D × Aug) :=
  match legacy_standard_gamma m fuel (df / 2) st with
  | none => none
  | some (v, st1) => some ((2 : D) * v, st1)

/-- `legacy_noncentral_chisquare`: branches on `nonc == 0`, then
`1 < df`, else the Poisson mixture whose NaN guard runs only after the
chi-square draw.  `random_poisson` is external to the sources (the spec
lists Poisson as supplied by the surrounding system); it is a parameter
`P` acting on the underlying uniform stream. -/
def legacy_noncentral_chisquare (m : MathFns)
    (P : D → List D → Option (ℤ × List D)) (fuel : ℕ) (df nonc : D)
    (st : Aug) : Option (D × Aug) :=
  if deq nonc 0 then legacy_chisquare m fuel df st
  else if dlt 1 df then
    match legacy_chisquare m fuel (df - 1) st with
    | none => none
    | some (Chi2, st1) =>
      match legacy_gauss m fuel st1 with
      | none => none
      | some (gz, st2) =>
        let n : D := gz + m.sqrt nonc
        some (Chi2 + n * n, st2)
  else
    match P (nonc / 2) st.stream with
    | none => none
    | some (i, rest) =>
      match legacy_chisquare m fuel (df + 2 * dOfInt i) ⟨st.has_gauss, st.gauss, rest⟩ with
      | none => none
      | some (out, st2) =>
        if disnan nonc then some ((none : D), st2) else some (out, st2)

/-- The `r2` of one polar Box-Muller pair built from two uniforms, as in
`legacy_gauss`. -/
def polarR2 (u1 u2 : D) : D :=
  (2 * u1 - 1) * (2 * u1 - 1) + (2 * u2 - 1) * (2 * u2 - 1)

/-- The polar-method scale factor `f = sqrt(-2 * log(r2) / r2)`. -/
def polarF (m : MathFns) (r2 : D) : D := m.sqrt (-(2 : D) * m.log r2 / r2)

/-! ## MT19937 (mt19937.pyx) -/

/-- The `mt19937_state` struct: 624 32-bit words and a position index. -/
structure MTState where
  key : Fin 624 → ℕ
  pos : ℕ

/-- Modelled from the spec: the reference MT19937 scalar initialization
`s[0] = seed`, `s[i] = 1812433253 * (s[i-1] xor (s[i-1] >> 30)) + i`
(mod 2^32); the C routine `mt19937_seed` is not under src.  The word at
index `i`. -/
def mt_scalar_word (s : ℕ) : ℕ → ℕ
  | 0 => s % 2 ^ 32
  | i + 1 =>
    (1812433253 * (mt_scalar_word s i ^^^ mt_scalar_word s i / 2 ^ 30) + (i + 1)) % 2 ^ 32

/-- Modelled from the spec: `mt19937_seed` fills the key by the Knuth
LCG recurrence and sets the position to 624 so that the next draw
triggers a twist. -/
def mt19937_seed_c (s : ℕ) : MTState := ⟨fun i => mt_scalar_word s i.val, 624⟩

/-- The seed argument of `MT19937.seed`: a scalar integer or an integer
array (the array path is reached through the `operator.index` TypeError
handler in the source). -/
inductive MTSeedArg where
  | scalar : ℤ → MTSeedArg
  | array : List ℤ → MTSeedArg

/-- `MT19937.seed`: range-validate, then initialize.  `iba` stands for
the C routine `mt19937_init_by_array` (not under src).  Array elements
are the int64 values produced by the `astype(int64, casting='safe')`
step of the source.  On error the payload carries the handle state at
the moment of the raise. -/
def mt_seed (iba : List ℕ → MTState) (sd : MTSeedArg) (st : MTState) :
    Except (Err × MTState) MTState :=
  match sd with
  | .scalar i =>
    if 2 ^ 32 - 1 < i ∨ i < 0 then .error (.valueError, st)
    else .ok (mt19937_seed_c i.toNat)
  | .array xs =>
    if ∃ x ∈ xs, 2 ^ 32 - 1 < x ∨ x < 0 then .error (.valueError, st)
    else .ok (iba (xs.map Int.toNat))

/-- `MT19937.jump`: a single invocation of the C routine `mt19937_jump`
(not under src, passed as the parameter `jc`); the method takes no count
argument and touches nothing but the C state. -/
def mt_jump (jc : MTState → MTState) (st : MTState) : MTState := jc st

/-- The tagged-record snapshot produced by the `MT19937.state` getter. -/
structure MTSnapshot where
  brng : String
  key : Fin 624 → ℕ
  pos : ℕ

/-- A Python value handed to the `MT19937.state` setter: a dict, a tuple,
or anything else. -/
inductive MTVal where
  | str : String → MTVal
  | arr : (Fin 624 → ℕ) → MTVal
  | num : ℕ → MTVal

/-- Input of the MT19937 state setter. -/
inductive MTStateValue where
  | dict : MTSnapshot → MTStateValue
  | tuple : List MTVal → MTStateValue
  | other : MTStateValue

/-- The Python comparison `value[0] == 'MT19937'` (comparing a
non-string element to the string is simply unequal). -/
def isMTTag : MTVal → Bool
  | .str s => s = "MT19937"
  | _ => false

/-- The `MT19937.state` getter. -/
def mt_get_state (st : MTState) : MTSnapshot := ⟨"MT19937", st.key, st.pos⟩

/-- The `MT19937.state` setter.  A tuple is checked
(`value[0] != 'MT19937' or len(value) not in (3,5)` raises ValueError;
indexing `value[0]` on an empty tuple raises IndexError) and converted
to the dict form with element 1 as key and element 2 as pos — that
conversion uses tag 'MT19937', so the subsequent dict tag check always
passes and the conversion is collapsed here.  A non-dict non-tuple
raises TypeError; a dict with a foreign tag raises ValueError. -/
def mt_set_state (v : MTStateValue) (st : MTState) :
    Except (Err × MTState) MTState :=
  match v with
  | .tuple xs =>
    match xs.head? with
    | none => .error (.indexError, st)
    | some e0 =>
      if isMTTag e0 = false ∨ (xs.length ≠ 3 ∧ xs.length ≠ 5) then
        .error (.valueError, st)
      else
        match xs[1]?, xs[2]? with
        | some (MTVal.arr k), some (MTVal.num p) => .ok ⟨k, p⟩
        | _, _ => .error (.typeError, st)
  | .dict d =>
    if d.brng ≠ "MT19937" then .error (.valueError, st)
    else .ok ⟨d.key, d.pos⟩
  | .other => .error (.typeError, st)

/-! ## ThreeFry32 (threefry32.pyx) -/

/-- The `threefry32_state` struct: counter words, key words, the
four-word output buffer and the buffer position. -/
structure TFState where
  ctr : Fin 4 → ℕ
  key : Fin 4 → ℕ
  buffer : Fin 4 → ℕ
  buffer_pos : ℕ

/-- `ThreeFry32._reset_state_variables`: buffer position to 4 (empty)
and the buffer words to zero. -/
def tf_reset_state_variables (st : TFState) : TFState :=
  { st with buffer_pos := 4, buffer := fun _ => 0 }

/-- Modelled from the spec: `int_to_array(v, name, total_bits,
word_bits)` converts a non-negative integer to `total_bits / word_bits`
little-endian words `word[i] = (v >> (word_bits*i)) mod 2^word_bits`,
failing with a range error when `v` does not fit (the helper lives in
the entropy / common modules, not under src). -/
def int_to_array (v total_bits word_bits : ℕ) : Option (List ℕ) :=
  if v < 2 ^ total_bits then
    some ((List.range (total_bits / word_bits)).map
      (fun i => v / 2 ^ (word_bits * i) % 2 ^ word_bits))
  else none

/-- Little-endian value of the four 32-bit counter words. -/
def tfWordsToNat (w : Fin 4 → ℕ) : ℕ :=
  w 0 + 2 ^ 32 * w 1 + 2 ^ 64 * w 2 + 2 ^ 96 * w 3

/-- Little-endian 32-bit word decomposition of a 128-bit value. -/
def tfNatToWords (n : ℕ) : Fin 4 → ℕ := fun i => n / 2 ^ (32 * i.val) % 2 ^ 32

/-- Fetch word `i` of an `int_to_array` result. -/
def listToFin4 (l : List ℕ) : Fin 4 → ℕ := fun i => l.getD i.val 0

/-- Modelled from the spec: `threefry32_advance` (C routine not under
src) adds the 128-bit delta to the counter as a little-endian value,
word 0 first with carry propagation, i.e. addition mod 2^128. -/
def threefry32_advance_c (delta : ℕ) (ctr : Fin 4 → ℕ) : Fin 4 → ℕ :=
  tfNatToWords ((tfWordsToNat ctr + delta) % 2 ^ 128)

/-- `ThreeFry32.advance`: marshal the delta through `int_to_array`
(raising ValueError when it does not fit 128 bits, before the C call),
apply the C advance, and reset the buffer state. -/
def tf_advance (delta : ℕ) (st : TFState) : Except (Err × TFState) TFState :=
  match int_to_array delta 128 32 with
  | none => .error (.valueError, st)
  | some _ =>
    .ok (tf_reset_state_variables { st with ctr := threefry32_advance_c delta st.ctr })

/-- `ThreeFry32.jump(iter)`: literally `self.advance(iter * 2 ** 64)`. -/
def tf_jump (k : ℕ) (st : TFState) : Except (Err × TFState) TFState :=
  tf_advance (k * 2 ^ 64) st

/-- One `advance(2 ** 64)` call (always in range). -/
def tfAdvanceUnit (st : TFState) : TFState :=
  tf_reset_state_variables { st with ctr := threefry32_advance_c (2 ^ 64) st.ctr }

/-- The second (counter) half of `ThreeFry32.seed`: default the counter
to 0, marshal it, store its words, and reset the buffer state. -/
def tf_seed_counter (counter : Option ℕ) (st1 : TFState) :
    Except (Err × TFState) TFState :=
  match int_to_array (counter.getD 0) 128 32 with
  | none => .error (.valueError, st1)
  | some cw => .ok (tf_reset_state_variables { st1 with ctr := listToFin4 cw })

/-- `ThreeFry32.seed`: reject `seed` and `key` both present first; then
derive the key words (from OS entropy or `seed_by_array`, both external
to src — the derived words are the parameter `ek` — or from
`int_to_array key`), then store the counter and reset the buffer.  On
error the payload carries the handle state at the raise. -/
def tf_seed (ek : Fin 4 → ℕ) (seed key counter : Option ℕ) (st : TFState) :
    Except (Err × TFState) TFState :=
  if seed.isSome ∧ key.isSome then .error (.valueError, st)
  else
    match key with
    | none => tf_seed_counter counter { st with key := fun i => ek i % 2 ^ 32 }
    | some kv =>
      match int_to_array kv 128 32 with
      | none => .error (.valueError, st)
      | some kw => tf_seed_counter counter { st with key := listToFin4 kw }

/-- The tagged-record snapshot of `ThreeFry32.state`. -/
structure TFSnapshot where
  brng : String
  counter : Fin 4 → ℕ
  key : Fin 4 → ℕ
  buffer : Fin 4 → ℕ
  buffer_pos : ℕ

/-- Input of the ThreeFry32 state setter: a dict or anything else. -/
inductive TFStateValue where
  | dict : TFSnapshot → TFStateValue
  | nondict : TFStateValue

/-- The `ThreeFry32.state` getter. -/
def tf_get_state (st : TFState) : TFSnapshot :=
  ⟨"ThreeFry32", st.ctr, st.key, st.buffer, st.buffer_pos⟩

/-- The first loop of the `ThreeFry32.state` setter:
`for i in range(4): ctr.v[i] = <uint32_t> counter[i]; key.v[i] =
<uint32_t> key[i]`.  A `<uint32_t>` cast of a Python object is a checked
Cython conversion: an out-of-range word raises OverflowError, leaving
the words assigned so far in place (the error payload carries that
partially updated state).  The model's words are naturals, so only the
upper bound applies. -/
def tf_set_ctrkey (d : TFSnapshot) : List (Fin 4) → TFState → Except (Err × TFState) TFState
  | [], st => .ok st
  | i :: rest, st =>
    if d.counter i < 2 ^ 32 then
      if d.key i < 2 ^ 32 then
        tf_set_ctrkey d rest
          { st with ctr := Function.update st.ctr i (d.counter i),
                    key := Function.update st.key i (d.key i) }
      else .error (.overflowError,
        { st with ctr := Function.update st.ctr i (d.counter i) })
    else .error (.overflowError, st)

/-- The second loop of the `ThreeFry32.state` setter:
`for i in range(4): buffer[i] = <uint32_t> value['buffer'][i]`, with the
same checked conversion. -/
def tf_set_buffer (d : TFSnapshot) : List (Fin 4) → TFState → Except (Err × TFState) TFState
  | [], st => .ok st
  | i :: rest, st =>
    if d.buffer i < 2 ^ 32 then
      tf_set_buffer d rest { st with buffer := Function.update st.buffer i (d.buffer i) }
    else .error (.overflowError, st)

/-- The `ThreeFry32.state` setter: TypeError for non-dicts, ValueError
for a foreign tag; then the counter/key and buffer words are assigned in
source order through the checked `<uint32_t>` conversions (OverflowError
for over-width words), and finally `buffer_pos` is stored as-is, with no
semantic range validation. -/
def tf_set_state (v : TFStateValue) (st : TFState) :
    Except (Err × TFState) TFState :=
  match v with
  | .nondict => .error (.typeError, st)
  | .dict d =>
    if d.brng ≠ "ThreeFry32" then .error (.valueError, st)
    else
      match tf_set_ctrkey d [0, 1, 2, 3] st with
      | .error e => .error e
      | .ok st1 =>
        match tf_set_buffer d [0, 1, 2, 3] st1 with
        | .error e => .error e
        | .ok st2 => .ok { st2 with buffer_pos := d.buffer_pos }

/-! ## Xoshiro256StarStar (xoshiro256starstar.pyx) -/

/-- The `xoshiro256starstar_state` struct: the four 64-bit words and the
32-bit half-word cache. -/
structure XoState where
  s : Fin 4 → ℕ
  has_uint32 : ℕ
  uinteger : ℕ

/-- `Xoshiro256StarStar.seed`: the four 64-bit words come from OS
entropy or `seed_by_array` (external to src, the parameter `words`);
they are stored through the `<uint64_t>` casts of the source and then
`_reset_state_variables` clears the half-word cache. -/
def xo_seed (words : Fin 4 → ℕ) (_st : XoState) : XoState :=
  ⟨fun i => words i % 2 ^ 64, 0, 0⟩

/-- `Xoshiro256StarStar.jump(iter)`: `iter` invocations of the C routine
`xoshiro256starstar_jump` (not under src, the parameter `jc`; per the
spec the jump polynomial reads and writes only the four state words),
then `_reset_state_variables`. -/
def xo_jump (jc : (Fin 4 → ℕ) → Fin 4 → ℕ) (k : ℕ) (st : XoState) : XoState :=
  ⟨jc^[k] st.s, 0, 0⟩

/-- The tagged-record snapshot of `Xoshiro256StarStar.state`. -/
structure XoSnapshot where
  brng : String
  s : Fin 4 → ℕ
  has_uint32 : ℕ
  uinteger : ℕ

/-- Input of the Xoshiro256StarStar state setter. -/
inductive XoStateValue where
  | dict : XoSnapshot → XoStateValue
  | nondict : XoStateValue

/-- The `Xoshiro256StarStar.state` getter. -/
def xo_get_state (st : XoState) : XoSnapshot :=
  ⟨"Xoshiro256StarStar", st.s, st.has_uint32, st.uinteger⟩

/-- The four `s[i] = <uint64_t> value['s'][i]` assignments of the
`Xoshiro256StarStar.state` setter.  A `<uint64_t>` cast of a Python
object is a checked Cython conversion: an out-of-range word raises
OverflowError, with the words assigned so far left in place. -/
def xo_set_s (d : XoSnapshot) : List (Fin 4) → XoState → Except (Err × XoState) XoState
  | [], st => .ok st
  | i :: rest, st =>
    if d.s i < 2 ^ 64 then
      xo_set_s d rest { st with s := Function.update st.s i (d.s i) }
    else .error (.overflowError, st)

/-- The `Xoshiro256StarStar.state` setter: TypeError for non-dicts,
ValueError for a foreign tag, then the `s` words are assigned through
the checked `<uint64_t>` conversions (OverflowError for over-width
words) and `has_uint32` / `uinteger` are stored as-is — the cached
half-word is restored from the snapshot, not wiped. -/
def xo_set_state (v : XoStateValue) (st : XoState) :
    Except (Err × XoState) XoState :=
  match v with
  | .nondict => .error (.typeError, st)
  | .dict d =>
    if d.brng ≠ "Xoshiro256StarStar" then .error (.valueError, st)
    else
      match xo_set_s d [0, 1, 2, 3] st with
      | .error e => .error e
      | .ok st1 => .ok { st1 with has_uint32 := d.has_uint32, uinteger := d.uinteger }

/-- The first `n` outputs of a deterministic draw function iterated from
a state: two handles in equal states produce equal draw sequences. -/
def drawStream {σ α : Type} (next : σ → α × σ) : ℕ → σ → List α
  | 0, _ => []
  | n + 1, st => (next st).1 :: drawStream next n (next st).2

/-! ## Helper lemmas about the state setters -/

/-- Updating all four indices of a `Fin 4` function in order replaces it
pointwise. -/
theorem update4_covers (f g : Fin 4 → ℕ) :
    Function.update (Function.update (Function.update
      (Function.update f 0 (g 0)) 1 (g 1)) 2 (g 2)) 3 (g 3) = g := by
  funext i
  fin_cases i <;> rfl

/-- Every index of `Fin 4` occurs in the setter loops' index list. -/
theorem mem_fin4 (i : Fin 4) : i ∈ ([0, 1, 2, 3] : List (Fin 4)) := by
  fin_cases i <;> decide

/-- A snapshot whose words are all in range is stored exactly by the
ThreeFry32 setter, with `buffer_pos` stored verbatim. -/
theorem tf_set_state_ok (d : TFSnapshot) (st : TFState)
    (htag : d.brng = "ThreeFry32")
    (hc : ∀ i, d.counter i < 2 ^ 32) (hk : ∀ i, d.key i < 2 ^ 32)
    (hb : ∀ i, d.buffer i < 2 ^ 32) :
    tf_set_state (.dict d) st = .ok ⟨d.counter, d.key, d.buffer, d.buffer_pos⟩ := by
  simp only [tf_set_state]
  rw [if_neg (by simp [htag])]
  simp only [tf_set_ctrkey, tf_set_buffer, hc, hk, hb, if_true]
  rw [update4_covers, update4_covers, update4_covers]

/-- A snapshot whose `s` words are all in range is stored exactly by the
Xoshiro256StarStar setter, the cache fields verbatim. -/
theorem xo_set_state_ok (d : XoSnapshot) (st : XoState)
    (htag : d.brng = "Xoshiro256StarStar") (hs : ∀ i, d.s i < 2 ^ 64) :
    xo_set_state (.dict d) st = .ok ⟨d.s, d.has_uint32, d.uinteger⟩ := by
  simp only [xo_set_state]
  rw [if_neg (by simp [htag])]
  simp only [xo_set_s, hs, if_true]
  rw [update4_covers]

/-- Inversion of the counter/key loop: success implies every processed
word was in range and was stored, and the other fields are untouched. -/
theorem tf_set_ctrkey_inv (d : TFSnapshot) :
    ∀ (l : List (Fin 4)) (st st2 : TFState), tf_set_ctrkey d l st = .ok st2 →
      (∀ i ∈ l, d.counter i < 2 ^ 32 ∧ d.key i < 2 ^ 32) ∧
      (∀ i, st2.ctr i = if i ∈ l then d.counter i else st.ctr i) ∧
      (∀ i, st2.key i = if i ∈ l then d.key i else st.key i) ∧
      st2.buffer = st.buffer ∧ st2.buffer_pos = st.buffer_pos := by
  intro l
  induction l with
  | nil =>
    intro st st2 h
    simp only [tf_set_ctrkey] at h
    injection h with hh
    subst hh
    simp
  | cons i0 rest ih =>
    intro st st2 h
    simp only [tf_set_ctrkey] at h
    by_cases hc : d.counter i0 < 2 ^ 32
    · rw [if_pos hc] at h
      by_cases hk : d.key i0 < 2 ^ 32
      · rw [if_pos hk] at h
        obtain ⟨hr, hct, hky, hbf, hbp⟩ := ih _ _ h
        refine ⟨?_, ?_, ?_, hbf, hbp⟩
        · intro i hi
          rcases List.mem_cons.mp hi with hi | hi
          · subst hi
            exact ⟨hc, hk⟩
          · exact hr i hi
        · intro i
          rw [hct i]
          by_cases hir : i ∈ rest
          · simp [hir]
          · by_cases hii : i = i0
            · subst hii
              simp [hir, Function.update_same]
            · simp [hir, hii, Function.update_noteq hii]
        · intro i
          rw [hky i]
          by_cases hir : i ∈ rest
          · simp [hir]
          · by_cases hii : i = i0
            · subst hii
              simp [hir, Function.update_same]
            · simp [hir, hii, Function.update_noteq hii]
      · rw [if_neg hk] at h
        cases h
    · rw [if_neg hc] at h
      cases h

/-- Inversion of the buffer loop: success implies every processed word
was in range and was stored, and the other fields are untouched. -/
theorem tf_set_buffer_inv (d : TFSnapshot) :
    ∀ (l : List (Fin 4)) (st st2 : TFState), tf_set_buffer d l st = .ok st2 →
      (∀ i ∈ l, d.buffer i < 2 ^ 32) ∧
      (∀ i, st2.buffer i = if i ∈ l then d.buffer i else st.buffer i) ∧
      st2.ctr = st.ctr ∧ st2.key = st.key ∧ st2.buffer_pos = st.buffer_pos := by
  intro l
  induction l with
  | nil =>
    intro st st2 h
    simp only [tf_set_buffer] at h
    injection h with hh
    subst hh
    simp
  | cons i0 rest ih =>
    intro st st2 h
    simp only [tf_set_buffer] at h
    by_cases hb : d.buffer i0 < 2 ^ 32
    · rw [if_pos hb] at h
      obtain ⟨hr, hbv, hcf, hkf, hbp⟩ := ih _ _ h
      refine ⟨?_, ?_, hcf, hkf, hbp⟩
      · intro i hi
        rcases List.mem_cons.mp hi with hi | hi
        · subst hi
          exact hb
        · exact hr i hi
      · intro i
        rw [hbv i]
        by_cases hir : i ∈ rest
        · simp [hir]
        · by_cases hii : i = i0
          · subst hii
            simp [hir, Function.update_same]
          · simp [hir, hii, Function.update_noteq hii]
    · rw [if_neg hb] at h
      cases h

/-- Inversion of the `s`-word assignments: success implies every
processed word was in range and was stored, and the cache fields are
untouched. -/
theorem xo_set_s_inv (d : XoSnapshot) :
    ∀ (l : List (Fin 4)) (st st2 : XoState), xo_set_s d l st = .ok st2 →
      (∀ i ∈ l, d.s i < 2 ^ 64) ∧
      (∀ i, st2.s i = if i ∈ l then d.s i else st.s i) ∧
      st2.has_uint32 = st.has_uint32 ∧ st2.uinteger = st.uinteger := by
  intro l
  induction l with
  | nil =>
    intro st st2 h
    simp only [xo_set_s] at h
    injection h with hh
    subst hh
    simp
  | cons i0 rest ih =>
    intro st st2 h
    simp only [xo_set_s] at h
    by_cases hs : d.s i0 < 2 ^ 64
    · rw [if_pos hs] at h
      obtain ⟨hr, hsv, hhu, hui⟩ := ih _ _ h
      refine ⟨?_, ?_, hhu, hui⟩
      · intro i hi
        rcases List.mem_cons.mp hi with hi | hi
        · subst hi
          exact hs
        · exact hr i hi
      · intro i
        rw [hsv i]
        by_cases hir : i ∈ rest
        · simp [hir]
        · by_cases hii : i = i0
          · subst hii
            simp [hir, Function.update_same]
          · simp [hir, hii, Function.update_noteq hii]
    · rw [if_neg hs] at h
      cases h

/-! ## Claim theorems -/

/-- A concrete instantiation of the abstract math slots, used by the
witnesses. -/
def mTest : MathFns := ⟨fun d => d, fun _ => (0 : D), fun a _ => a⟩

/-- C1: with `has_gauss` false, `legacy_gauss` draws pairs
`x1 = 2u - 1`, `x2 = 2u - 1` from `next_double`, rejecting while
`r2 = x1*x1 + x2*x2` is `>= 1` or `== 0`; on acceptance it returns
`f*x2` and caches `f*x1` with `has_gauss` set, where
`f = sqrt(-2*log(r2)/r2)`; with `has_gauss` true the call returns the
cached value, consumes no uniforms, and clears the cache. -/
theorem legacy_gauss_polar_spec (m : MathFns) (fuel : ℕ) :
    (∀ g s, legacy_gauss m fuel ⟨true, g, s⟩ = some (g, ⟨false, (0 : D), s⟩)) ∧
    (∀ g u1 u2 rest,
      (dge (polarR2 u1 u2) 1 = true ∨ deq (polarR2 u1 u2) 0 = true) →
      legacy_gauss m (fuel + 1) ⟨false, g, u1 :: u2 :: rest⟩ =
        legacy_gauss m fuel ⟨false, g, rest⟩) ∧
    (∀ g u1 u2 rest,
      dge (polarR2 u1 u2) 1 = false → deq (polarR2 u1 u2) 0 = false →
      legacy_gauss m (fuel + 1) ⟨false, g, u1 :: u2 :: rest⟩ =
        some (polarF m (polarR2 u1 u2) * (2 * u2 - 1),
              ⟨true, polarF m (polarR2 u1 u2) * (2 * u1 - 1), rest⟩)) := by
  refine ⟨fun g s => by cases fuel <;> rfl,
          fun g u1 u2 rest h => ?_, fun g u1 u2 rest h1 h2 => ?_⟩
  · have hc : (dge (polarR2 u1 u2) 1 || deq (polarR2 u1 u2) 0) = true := by
      rcases h with h | h <;> simp [h]
    simp only [polarR2] at hc
    simp only [legacy_gauss, hc, if_true]
  · have hc : (dge (polarR2 u1 u2) 1 || deq (polarR2 u1 u2) 0) = false := by
      simp [h1, h2]
    simp only [polarR2] at hc
    simp only [legacy_gauss, hc, Bool.false_eq_true, if_false, polarF, polarR2]

/-- Computation rule for `D` addition on non-NaN values. -/
@[simp] theorem some_dadd (x y : ℚ) : (some x : D) + some y = some (x + y) := rfl

/-- Computation rule for `D` subtraction on non-NaN values. -/
@[simp] theorem some_dsub (x y : ℚ) : (some x : D) - some y = some (x - y) := rfl

/-- Computation rule for `D` multiplication on non-NaN values. -/
@[simp] theorem some_dmul (x y : ℚ) : (some x : D) * some y = some (x * y) := rfl

/-- Computation rule for `D` division on non-NaN values. -/
@[simp] theorem some_ddiv (x y : ℚ) : (some x : D) / some y = some (x / y) := rfl

/-- Computation rule for `D` negation on non-NaN values. -/
@[simp] theorem some_dneg (x : ℚ) : -(some x : D) = some (-x) := rfl

/-- A `D` numeral is the corresponding rational numeral. -/
@[simp] theorem D_ofNat (n : ℕ) : (OfNat.ofNat n : D) = some (OfNat.ofNat n : ℚ) := rfl

/-- Computation rule for `dlt` on non-NaN values. -/
@[simp] theorem dlt_some (x y : ℚ) : dlt (some x) (some y) = decide (x < y) := rfl

/-- Computation rule for `dle` on non-NaN values. -/
@[simp] theorem dle_some (x y : ℚ) : dle (some x) (some y) = decide (x ≤ y) := rfl

/-- Computation rule for `deq` on non-NaN values. -/
@[simp] theorem deq_some (x y : ℚ) : deq (some x) (some y) = decide (x = y) := rfl

/-- Witness for C1: a cached call, a rejected pair (`u = 1` gives
`r2 = 2 >= 1`), and an accepted pair (`u = 1/4` gives `r2 = 1/2`). -/
theorem legacy_gauss_polar_spec_witness :
    legacy_gauss mTest 2 ⟨true, some 7, [some 1]⟩ =
      some (some 7, ⟨false, (0 : D), [some 1]⟩) ∧
    ((dge (polarR2 (some 1) (some 1)) 1 = true ∨
        deq (polarR2 (some 1) (some 1)) 0 = true) ∧
      legacy_gauss mTest 1 ⟨false, (0 : D), [some 1, some 1]⟩ =
        legacy_gauss mTest 0 ⟨false, (0 : D), []⟩) ∧
    (dge (polarR2 (some (1/4)) (some (1/4))) 1 = false ∧
      deq (polarR2 (some (1/4)) (some (1/4))) 0 = false ∧
      legacy_gauss mTest 1 ⟨false, (0 : D), [some (1/4), some (1/4)]⟩ =
        some (polarF mTest (polarR2 (some (1/4)) (some (1/4))) * (2 * some (1/4) - 1),
              ⟨true, polarF mTest (polarR2 (some (1/4)) (some (1/4))) * (2 * some (1/4) - 1),
               []⟩)) :=
  ⟨(legacy_gauss_polar_spec mTest 2).1 (some 7) [some 1],
   ⟨Or.inl (by simp only [polarR2, dge, D_ofNat, some_dmul, some_dsub, some_dadd,
      dle_some]; norm_num),
    (legacy_gauss_polar_spec mTest 0).2.1 (0 : D) (some 1) (some 1) []
      (Or.inl (by simp only [polarR2, dge, D_ofNat, some_dmul, some_dsub, some_dadd,
        dle_some]; norm_num))⟩,
   by simp only [polarR2, dge, D_ofNat, some_dmul, some_dsub, some_dadd, dle_some]
      norm_num,
   by simp only [polarR2, D_ofNat, some_dmul, some_dsub, some_dadd, deq_some]
      norm_num,
   (legacy_gauss_polar_spec mTest 0).2.2 (0 : D) (some (1/4)) (some (1/4)) []
     (by simp only [polarR2, dge, D_ofNat, some_dmul, some_dsub, some_dadd, dle_some]
         norm_num)
     (by simp only [polarR2, D_ofNat, some_dmul, some_dsub, some_dadd, deq_some]
         norm_num)⟩

/-- C4: `legacy_standard_gamma` branches in source order: `shape == 1`
returns one standard exponential draw; `shape == 0` returns 0.0;
`shape < 1` runs the Ahrens-Dieter loop whose every trial consumes one
uniform then one standard exponential and decides between the two
acceptance tests with `U <= 1 - shape`; `shape > 1` runs the
Marsaglia-Tsang squeeze whose inner loop draws through the cached-gauss
mechanism (`legacy_gauss`) and whose every outer trial then consumes
exactly one uniform. -/
theorem legacy_standard_gamma_spec (m : MathFns) (fuel : ℕ) :
    (∀ shape st, deq shape 1 = true →
      legacy_standard_gamma m fuel shape st = legacy_standard_exponential m st) ∧
    (∀ shape st, deq shape 1 = false → deq shape 0 = true →
      legacy_standard_gamma m fuel shape st = some ((0 : D), st)) ∧
    (∀ shape st, deq shape 1 = false → deq shape 0 = false → dlt shape 1 = true →
      legacy_standard_gamma m fuel shape st = gamma_small_loop m shape fuel st) ∧
    (∀ shape hg g u1 u2 rest f,
      gamma_small_loop m shape (f + 1) ⟨hg, g, u1 :: u2 :: rest⟩ =
        (let U := u1
         let V : D := -(m.log (1 - u2))
         let st2 : Aug := ⟨hg, g, rest⟩
         if dle U (1 - shape) then
           if dle (m.pow U (1 / shape)) V then some (m.pow U (1 / shape), st2)
           else gamma_small_loop m shape f st2
         else
           let Y : D := -(m.log ((1 - U) / shape))
           if dle (m.pow (1 - shape + shape * Y) (1 / shape)) (V + Y) then
             some (m.pow (1 - shape + shape * Y) (1 / shape), st2)
           else gamma_small_loop m shape f st2)) ∧
    (∀ shape st, dlt 1 shape = true →
      legacy_standard_gamma m fuel shape st =
        gamma_large_loop m (shape - (1 : D) / 3)
          ((1 : D) / m.sqrt (9 * (shape - (1 : D) / 3))) fuel st) ∧
    (∀ c f st, gamma_inner m c (f + 1) st =
      (match legacy_gauss m (f + 1) st with
       | none => none
       | some (X, st1) =>
         if dle (1 + c * X) 0 then gamma_inner m c f st1
         else some (X, 1 + c * X, st1))) ∧
    (∀ b c f st X V0 hg g U rest,
      gamma_inner m c (f + 1) st = some (X, V0, ⟨hg, g, U :: rest⟩) →
      gamma_large_loop m b c (f + 1) st =
        (let V : D := V0 * V0 * V0
         let st2 : Aug := ⟨hg, g, rest⟩
         if dlt U (1 - (331 : D) / 10000 * (X * X) * (X * X)) then some (b * V, st2)
         else if dlt (m.log U) ((1 : D) / 2 * X * X + b * (1 - V + m.log V)) then
           some (b * V, st2)
         else gamma_large_loop m b c f st2)) := by
  refine ⟨fun shape st h1 => ?_, fun shape st h1 h2 => ?_,
          fun shape st h1 h2 h3 => ?_, fun shape hg g u1 u2 rest f => ?_,
          fun shape st h => ?_, fun c f st => ?_,
          fun b c f st X V0 hg g U rest h => ?_⟩
  · simp only [legacy_standard_gamma, h1, if_true]
  · simp only [legacy_standard_gamma, h1, h2, Bool.false_eq_true, if_false, if_true]
  · simp only [legacy_standard_gamma, h1, h2, h3, Bool.false_eq_true, if_false, if_true]
  · rfl
  · obtain ⟨q, rfl⟩ : ∃ q : ℚ, shape = some q := by
      cases shape with
      | none => simp [dlt] at h
      | some q => exact ⟨q, rfl⟩
    have hq : (1 : ℚ) < q := by simpa using h
    have h1 : deq (some q) 1 = false := by
      simp only [D_ofNat, deq_some, decide_eq_false_iff_not]
      exact fun hc => absurd hc (ne_of_gt hq)
    have h2 : deq (some q) 0 = false := by
      simp only [D_ofNat, deq_some, decide_eq_false_iff_not]
      exact fun hc => by simp [hc] at hq; exact absurd hq (by norm_num)
    have h3 : dlt (some q) 1 = false := by
      simp only [D_ofNat, dlt_some, decide_eq_false_iff_not, not_lt]
      exact le_of_lt hq
    simp only [legacy_standard_gamma, h1, h2, h3, Bool.false_eq_true, if_false]
  · cases hg : legacy_gauss m (f + 1) st with
    | none => simp [gamma_inner, hg]
    | some p =>
      obtain ⟨X, st1⟩ := p
      simp [gamma_inner, hg]
  · simp only [gamma_large_loop, h, legacy_double]

/-- An augmented state with an empty stream, for branch-dispatch
witnesses. -/
def augW : Aug := ⟨false, some 0, []⟩

/-- An augmented state whose stream accepts one polar pair
(`u = 1/4` twice) and then offers one more uniform. -/
def gammaW : Aug := ⟨false, some 0, [some (1/4), some (1/4), some (1/3)]⟩

/-- Witness for C4: the four branch dispatches at shapes 1, 0, 1/2 and 2,
plus one concrete Marsaglia-Tsang outer trial. -/
theorem legacy_standard_gamma_spec_witness :
    (deq (some 1) 1 = true ∧
      legacy_standard_gamma mTest 3 (some 1) augW = legacy_standard_exponential mTest augW) ∧
    (deq (some 0) 1 = false ∧ deq (some 0) 0 = true ∧
      legacy_standard_gamma mTest 3 (some 0) augW = some ((0 : D), augW)) ∧
    (deq (some (1/2)) 1 = false ∧ deq (some (1/2)) 0 = false ∧
      dlt (some (1/2)) 1 = true ∧
      legacy_standard_gamma mTest 3 (some (1/2)) augW =
        gamma_small_loop mTest (some (1/2)) 3 augW) ∧
    (dlt 1 (some 2) = true ∧
      legacy_standard_gamma mTest 3 (some 2) augW =
        gamma_large_loop mTest (some 2 - (1 : D) / 3)
          ((1 : D) / mTest.sqrt (9 * (some 2 - (1 : D) / 3))) 3 augW) ∧
    (gamma_inner mTest (some (1/15)) 1 gammaW =
        some (some 0, some 1, ⟨true, some 0, [some (1/3)]⟩) ∧
      gamma_large_loop mTest (some (5/3)) (some (1/15)) 1 gammaW =
        (let V : D := some 1 * some 1 * some 1
         let st2 : Aug := ⟨true, some 0, []⟩
         if dlt (some (1/3)) (1 - (331 : D) / 10000 * (some 0 * some 0) * (some 0 * some 0)) then
           some (some (5/3) * V, st2)
         else if dlt (mTest.log (some (1/3)))
             ((1 : D) / 2 * some 0 * some 0 + some (5/3) * (1 - V + mTest.log V)) then
           some (some (5/3) * V, st2)
         else gamma_large_loop mTest (some (5/3)) (some (1/15)) 0 st2)) := by
  have h1 : deq (some 1) (1 : D) = true := by
    simp [deq_some]
  have h20 : deq (some 0) (1 : D) = false := by
    simp only [D_ofNat, deq_some]
    norm_num
  have h21 : deq (some 0) (0 : D) = true := by
    simp [deq_some]
  have h30 : deq (some (1/2)) (1 : D) = false := by
    simp only [D_ofNat, deq_some]
    norm_num
  have h31 : deq (some (1/2)) (0 : D) = false := by
    simp only [D_ofNat, deq_some]
    norm_num
  have h32 : dlt (some (1/2)) (1 : D) = true := by
    simp only [D_ofNat, dlt_some]
    norm_num
  have h4 : dlt (1 : D) (some 2) = true := by
    simp only [D_ofNat, dlt_some]
    norm_num
  have hin : gamma_inner mTest (some (1/15)) 1 gammaW =
      some (some 0, some 1, ⟨true, some 0, [some (1/3)]⟩) := by
    simp only [gamma_inner, legacy_gauss, gammaW, mTest, dge, D_ofNat, some_dmul,
      some_dsub, some_dadd, some_ddiv, some_dneg, dle_some, deq_some]
    norm_num
  exact ⟨⟨h1, (legacy_standard_gamma_spec mTest 3).1 (some 1) augW h1⟩,
    ⟨h20, h21, (legacy_standard_gamma_spec mTest 3).2.1 (some 0) augW h20 h21⟩,
    ⟨h30, h31, h32,
      (legacy_standard_gamma_spec mTest 3).2.2.1 (some (1/2)) augW h30 h31 h32⟩,
    ⟨h4, (legacy_standard_gamma_spec mTest 3).2.2.2.2.1 (some 2) augW h4⟩,
    ⟨hin, (legacy_standard_gamma_spec mTest 0).2.2.2.2.2.2 (some (5/3)) (some (1/15))
      0 gammaW (some 0) (some 1) true (some 0) (some (1/3)) [] hin⟩⟩

/-- C5: `legacy_noncentral_chisquare` selects its three branches on
`nonc == 0`, then `1 < df`, else the Poisson mixture; the `nonc == 0`
test fails for NaN, and in the Poisson-mixture branch the NaN guard runs
only after the Poisson and chi-square draws, so a NaN `nonc` yields NaN
with the post-draw state (stream preserved). -/
theorem legacy_noncentral_chisquare_spec (m : MathFns)
    (P : D → List D → Option (ℤ × List D)) (fuel : ℕ) :
    deq (none : D) 0 = false ∧
    (∀ df nonc st, deq nonc 0 = true →
      legacy_noncentral_chisquare m P fuel df nonc st =
        legacy_chisquare m fuel df st) ∧
    (∀ df nonc st, deq nonc 0 = false → dlt 1 df = true →
      legacy_noncentral_chisquare m P fuel df nonc st =
        (match legacy_chisquare m fuel (df - 1) st with
         | none => none
         | some (Chi2, st1) =>
           match legacy_gauss m fuel st1 with
           | none => none
           | some (gz, st2) =>
             some (Chi2 + (gz + m.sqrt nonc) * (gz + m.sqrt nonc), st2))) ∧
    (∀ df nonc st i rest out st2, deq nonc 0 = false → dlt 1 df = false →
      P (nonc / 2) st.stream = some (i, rest) →
      legacy_chisquare m fuel (df + 2 * dOfInt i) ⟨st.has_gauss, st.gauss, rest⟩ =
        some (out, st2) →
      legacy_noncentral_chisquare m P fuel df nonc st =
        some (if disnan nonc then (none : D) else out, st2)) := by
  refine ⟨rfl, fun df nonc st h => ?_, fun df nonc st h1 h2 => ?_,
          fun df nonc st i rest out st2 h1 h2 hp hc => ?_⟩
  · simp only [legacy_noncentral_chisquare, h, if_true]
  · simp only [legacy_noncentral_chisquare, h1, h2, Bool.false_eq_true, if_false,
      if_true]
  · simp only [legacy_noncentral_chisquare, h1, h2, Bool.false_eq_true, if_false,
      hp, hc]
    cases hn : disnan nonc <;> simp [hn]

/-- A Poisson stub that consumes nothing and returns 0, for the C5
witness. -/
def P0 : D → List D → Option (ℤ × List D) := fun _ s => some (0, s)

/-- An augmented state whose stream feeds one accepted Ahrens-Dieter
trial, for the C5 witness. -/
def ncxW : Aug := ⟨false, some 0, [some 0, some 0]⟩

/-- Witness for C5: the `nonc == 0` branch at `nonc = 0`, the `df > 1`
branch at `df = 2`, and the Poisson-mixture branch at `df = 1` with NaN
`nonc`, where the draws happen and NaN is returned with the post-draw
state. -/
theorem legacy_noncentral_chisquare_spec_witness :
    (deq (some 0) 0 = true ∧
      legacy_noncentral_chisquare mTest P0 1 (some 3) (some 0) augW =
        legacy_chisquare mTest 1 (some 3) augW) ∧
    (deq (some 1) 0 = false ∧ dlt 1 (some 2) = true ∧
      legacy_noncentral_chisquare mTest P0 1 (some 2) (some 1) augW =
        (match legacy_chisquare mTest 1 (some 2 - 1) augW with
         | none => none
         | some (Chi2, st1) =>
           match legacy_gauss mTest 1 st1 with
           | none => none
           | some (gz, st2) =>
             some (Chi2 + (gz + mTest.sqrt (some 1)) * (gz + mTest.sqrt (some 1)), st2))) ∧
    (deq (none : D) 0 = false ∧ dlt 1 (some 1) = false ∧
      P0 ((none : D) / 2) ncxW.stream = some (0, [some 0, some 0]) ∧
      legacy_chisquare mTest 1 (some 1 + 2 * dOfInt 0) ⟨false, some 0, [some 0, some 0]⟩ =
        some (some 0, ⟨false, some 0, []⟩) ∧
      legacy_noncentral_chisquare mTest P0 1 (some 1) (none : D) ncxW =
        some (if disnan (none : D) then (none : D) else some 0, ⟨false, some 0, []⟩)) := by
  have hz : deq (some 0) (0 : D) = true := by simp [deq_some]
  have h1 : deq (some 1) (0 : D) = false := by
    simp only [D_ofNat, deq_some]
    norm_num
  have h2 : dlt (1 : D) (some 2) = true := by
    simp only [D_ofNat, dlt_some]
    norm_num
  have h3 : dlt (1 : D) (some 1) = false := by
    simp only [D_ofNat, dlt_some]
    norm_num
  have hc : legacy_chisquare mTest 1 (some 1 + 2 * dOfInt 0)
      ⟨false, some 0, [some 0, some 0]⟩ = some (some 0, ⟨false, some 0, []⟩) := by
    simp only [legacy_chisquare, legacy_standard_gamma, gamma_small_loop,
      legacy_double, legacy_standard_exponential, dOfInt, mTest, D_ofNat,
      some_dmul, some_dsub, some_dadd, some_ddiv, some_dneg, dle_some, deq_some,
      dlt_some, Int.cast_zero]
    norm_num
  exact ⟨⟨hz, (legacy_noncentral_chisquare_spec mTest P0 1).2.1 (some 3) (some 0)
      augW hz⟩,
    ⟨h1, h2, (legacy_noncentral_chisquare_spec mTest P0 1).2.2.1 (some 2) (some 1)
      augW h1 h2⟩,
    ⟨rfl, h3, rfl, hc,
      (legacy_noncentral_chisquare_spec mTest P0 1).2.2.2 (some 1) (none : D) ncxW
        0 [some 0, some 0] (some 0) ⟨false, some 0, []⟩ rfl h3 rfl hc⟩⟩

/-- Recomposing the word decomposition of a counter value gives the
value mod 2^128. -/
theorem tfWordsToNat_tfNatToWords (n : ℕ) :
    tfWordsToNat (tfNatToWords n) = n % 2 ^ 128 := by
  have e0 : (0 : Fin 4).val = 0 := rfl
  have e1 : (1 : Fin 4).val = 1 := rfl
  have e2 : (2 : Fin 4).val = 2 := rfl
  have e3 : (3 : Fin 4).val = 3 := rfl
  simp only [tfWordsToNat, tfNatToWords, e0, e1, e2, e3]
  norm_num
  omega

/-- Two counter advances compose additively. -/
theorem threefry32_advance_c_compose (a b : ℕ) (w : Fin 4 → ℕ) :
    threefry32_advance_c b (threefry32_advance_c a w) =
      threefry32_advance_c (a + b) w := by
  simp only [threefry32_advance_c, tfWordsToNat_tfNatToWords]
  have h : ((tfWordsToNat w + a) % 2 ^ 128 % 2 ^ 128 + b) % 2 ^ 128 =
      (tfWordsToNat w + (a + b)) % 2 ^ 128 := by omega
  rw [h]

/-- Iterating the unit `advance(2^64)` accumulates the counter shifts. -/
theorem tfAdvanceUnit_iterate (k : ℕ) (st : TFState) :
    tfAdvanceUnit^[k + 1] st =
      ⟨threefry32_advance_c ((k + 1) * 2 ^ 64) st.ctr, st.key, fun _ => 0, 4⟩ := by
  induction k with
  | zero =>
    simp [tfAdvanceUnit, tf_reset_state_variables, one_mul]
  | succ n ih =>
    rw [Function.iterate_succ_apply', ih]
    simp only [tfAdvanceUnit, tf_reset_state_variables, threefry32_advance_c_compose]
    have : (n + 1) * 2 ^ 64 + 2 ^ 64 = (n + 1 + 1) * 2 ^ 64 := by ring
    rw [this]

/-- Iterating `xo_jump jc 1` accumulates applications of the C jump. -/
theorem xo_jump_one_iterate (jc : (Fin 4 → ℕ) → Fin 4 → ℕ) (k : ℕ) (st : XoState) :
    (xo_jump jc 1)^[k + 1] st = ⟨jc^[k + 1] st.s, 0, 0⟩ := by
  induction k with
  | zero => rfl
  | succ n ih =>
    rw [Function.iterate_succ_apply', ih]
    simp only [xo_jump, Function.iterate_one]
    congr 1
    exact (Function.iterate_succ_apply' jc (n + 1) st.s).symm

/-- C3: jump algebra.  MT19937's `jump` takes no count, so `jump(k)` is
`k` successive calls, trivially `jump(1)` iterated `k` times; for
Xoshiro256StarStar, `jump(k)` equals `jump(1)` applied `k` times
(`k >= 1`); for ThreeFry32, `jump(k)` is literally `advance(k * 2^64)`,
`advance(2^64)` is the unit advance, and for `1 <= k` with
`k * 2^64 < 2^128`, `advance(k * 2^64)` equals the unit advance applied
`k` times. -/
theorem jump_algebra_spec :
    (∀ (jc : MTState → MTState) (k : ℕ) (st : MTState),
      (mt_jump jc)^[k] st = ((mt_jump jc)^[1])^[k] st) ∧
    (∀ (jc : (Fin 4 → ℕ) → Fin 4 → ℕ) (k : ℕ) (st : XoState), 1 ≤ k →
      xo_jump jc k st = (xo_jump jc 1)^[k] st) ∧
    (∀ (k : ℕ) (st : TFState), tf_jump k st = tf_advance (k * 2 ^ 64) st) ∧
    (∀ st : TFState, tf_advance (2 ^ 64) st = .ok (tfAdvanceUnit st)) ∧
    (∀ (k : ℕ) (st : TFState), 1 ≤ k → k * 2 ^ 64 < 2 ^ 128 →
      tf_advance (k * 2 ^ 64) st = .ok (tfAdvanceUnit^[k] st)) := by
  refine ⟨fun jc k st => by rw [Function.iterate_one],
          fun jc k st hk => ?_, fun k st => rfl, fun st => ?_,
          fun k st hk hlt => ?_⟩
  · obtain ⟨j, rfl⟩ : ∃ j, k = j + 1 := ⟨k - 1, by omega⟩
    rw [xo_jump_one_iterate]
    rfl
  · simp only [tf_advance, int_to_array]
    norm_num [tfAdvanceUnit, tf_reset_state_variables]
  · obtain ⟨j, rfl⟩ : ∃ j, k = j + 1 := ⟨k - 1, by omega⟩
    rw [tfAdvanceUnit_iterate]
    simp only [tf_advance, int_to_array, if_pos hlt]
    rfl

/-- A concrete MT19937 state for witnesses. -/
def mtW : MTState := ⟨fun _ => 5, 3⟩

/-- A second concrete MT19937 state for witnesses. -/
def mtW2 : MTState := ⟨fun _ => 8, 11⟩

/-- A concrete ThreeFry32 state for witnesses. -/
def tfW : TFState := ⟨fun _ => 1, fun _ => 2, fun _ => 3, 0⟩

/-- A second concrete ThreeFry32 state for witnesses. -/
def tfW2 : TFState := ⟨fun _ => 6, fun _ => 7, fun _ => 8, 2⟩

/-- A concrete Xoshiro256StarStar state for witnesses. -/
def xoW : XoState := ⟨fun _ => 9, 1, 7⟩

/-- A second concrete Xoshiro256StarStar state for witnesses. -/
def xoW2 : XoState := ⟨fun _ => 12, 0, 0⟩

/-- Witness for C3: the three generators at `k = 2` on concrete
states. -/
theorem jump_algebra_spec_witness :
    (mt_jump id)^[2] mtW = ((mt_jump id)^[1])^[2] mtW ∧
    (1 ≤ 2 ∧ xo_jump id 2 xoW = (xo_jump id 1)^[2] xoW) ∧
    tf_jump 2 tfW = tf_advance (2 * 2 ^ 64) tfW ∧
    tf_advance (2 ^ 64) tfW = .ok (tfAdvanceUnit tfW) ∧
    (1 ≤ 2 ∧ 2 * 2 ^ 64 < 2 ^ 128 ∧
      tf_advance (2 * 2 ^ 64) tfW = .ok (tfAdvanceUnit^[2] tfW)) :=
  ⟨jump_algebra_spec.1 id 2 mtW,
   ⟨by norm_num, jump_algebra_spec.2.1 id 2 xoW (by norm_num)⟩,
   jump_algebra_spec.2.2.1 2 tfW,
   jump_algebra_spec.2.2.2.1 tfW,
   by norm_num, by norm_num,
   jump_algebra_spec.2.2.2.2 2 tfW (by norm_num) (by norm_num)⟩

/-- All ThreeFry32 state words fit in 32 bits. -/
def tfStateInRange (st : TFState) : Bool :=
  decide (∀ i, st.ctr i < 2 ^ 32) && decide (∀ i, st.key i < 2 ^ 32) &&
    decide (∀ i, st.buffer i < 2 ^ 32)

/-- All Xoshiro256StarStar state words fit in 64 bits. -/
def xoStateInRange (st : XoState) : Bool := decide (∀ i, st.s i < 2 ^ 64)

/-- C2: for each of the three generators, restoring the snapshot read
from a handle into any other handle reproduces the source state exactly
(the snapshot captures key/pos, counter/key/buffer/buffer_pos,
s/has_uint32/uinteger), and so the restored handle produces the same
draw sequence under any deterministic draw function.  ThreeFry32 and
Xoshiro256StarStar store words through truncating casts, so their
round-trips are stated for in-range states. -/
theorem state_snapshot_roundtrip_spec :
    (∀ st st2 : MTState, mt_set_state (.dict (mt_get_state st)) st2 = .ok st) ∧
    (∀ st st2 : TFState, tfStateInRange st = true →
      tf_set_state (.dict (tf_get_state st)) st2 = .ok st) ∧
    (∀ st st2 : XoState, xoStateInRange st = true →
      xo_set_state (.dict (xo_get_state st)) st2 = .ok st) ∧
    (∀ (st st2 st3 : MTState) (next : MTState → ℕ × MTState) (n : ℕ),
      mt_set_state (.dict (mt_get_state st)) st2 = .ok st3 →
      drawStream next n st3 = drawStream next n st) ∧
    (∀ (st st2 st3 : TFState) (next : TFState → ℕ × TFState) (n : ℕ),
      tfStateInRange st = true →
      tf_set_state (.dict (tf_get_state st)) st2 = .ok st3 →
      drawStream next n st3 = drawStream next n st) ∧
    (∀ (st st2 st3 : XoState) (next : XoState → ℕ × XoState) (n : ℕ),
      xoStateInRange st = true →
      xo_set_state (.dict (xo_get_state st)) st2 = .ok st3 →
      drawStream next n st3 = drawStream next n st) := by
  have hmt : ∀ st st2 : MTState,
      mt_set_state (.dict (mt_get_state st)) st2 = .ok st := by
    intro st st2
    simp [mt_set_state, mt_get_state]
  have htf : ∀ st st2 : TFState, tfStateInRange st = true →
      tf_set_state (.dict (tf_get_state st)) st2 = .ok st := by
    intro st st2 h
    simp only [tfStateInRange, Bool.and_eq_true, decide_eq_true_eq] at h
    obtain ⟨⟨h1, h2⟩, h3⟩ := h
    exact tf_set_state_ok (tf_get_state st) st2 rfl h1 h2 h3
  have hxo : ∀ st st2 : XoState, xoStateInRange st = true →
      xo_set_state (.dict (xo_get_state st)) st2 = .ok st := by
    intro st st2 h
    simp only [xoStateInRange, decide_eq_true_eq] at h
    exact xo_set_state_ok (xo_get_state st) st2 rfl h
  refine ⟨hmt, htf, hxo, fun st st2 st3 next n h => ?_,
          fun st st2 st3 next n hi h => ?_, fun st st2 st3 next n hi h => ?_⟩
  · have h2 := hmt st st2
    rw [h] at h2
    injection h2 with hh
    rw [hh]
  · have h2 := htf st st2 hi
    rw [h] at h2
    injection h2 with hh
    rw [hh]
  · have h2 := hxo st st2 hi
    rw [h] at h2
    injection h2 with hh
    rw [hh]

/-- Witness for C2: concrete round-trips and draw-stream agreement for
all three generators. -/
theorem state_snapshot_roundtrip_spec_witness :
    mt_set_state (.dict (mt_get_state mtW)) mtW2 = .ok mtW ∧
    (tfStateInRange tfW = true ∧
      tf_set_state (.dict (tf_get_state tfW)) tfW2 = .ok tfW) ∧
    (xoStateInRange xoW = true ∧
      xo_set_state (.dict (xo_get_state xoW)) xoW2 = .ok xoW) ∧
    drawStream (fun st : MTState => (st.pos, st)) 3 mtW =
      drawStream (fun st : MTState => (st.pos, st)) 3 mtW ∧
    drawStream (fun st : TFState => (st.buffer_pos, st)) 3 tfW =
      drawStream (fun st : TFState => (st.buffer_pos, st)) 3 tfW ∧
    drawStream (fun st : XoState => (st.uinteger, st)) 3 xoW =
      drawStream (fun st : XoState => (st.uinteger, st)) 3 xoW := by
  have hti : tfStateInRange tfW = true := by decide
  have hxi : xoStateInRange xoW = true := by decide
  refine ⟨state_snapshot_roundtrip_spec.1 mtW mtW2,
          ⟨hti, state_snapshot_roundtrip_spec.2.1 tfW tfW2 hti⟩,
          ⟨hxi, state_snapshot_roundtrip_spec.2.2.1 xoW xoW2 hxi⟩,
          state_snapshot_roundtrip_spec.2.2.2.1 mtW mtW2 mtW
            (fun st => (st.pos, st)) 3 (state_snapshot_roundtrip_spec.1 mtW mtW2),
          state_snapshot_roundtrip_spec.2.2.2.2.1 tfW tfW2 tfW
            (fun st => (st.buffer_pos, st)) 3 hti
            (state_snapshot_roundtrip_spec.2.1 tfW tfW2 hti),
          state_snapshot_roundtrip_spec.2.2.2.2.2 xoW xoW2 xoW
            (fun st => (st.uinteger, st)) 3 hxi
            (state_snapshot_roundtrip_spec.2.2.1 xoW xoW2 hxi)⟩

/-- A Xoshiro256StarStar snapshot carrying a nonzero cached half-word. -/
def xoSnapC6 : XoSnapshot := ⟨"Xoshiro256StarStar", fun _ => 0, 1, 5⟩

/-- Counterexample for C6: restoring a snapshot does not wipe the cached
half-word — restoring `has_uint32 = 1`, `uinteger = 5` leaves the state
with `has_uint32 = 1`, not 0. -/
theorem xo_restore_keeps_cache_cex :
    xo_set_state (.dict xoSnapC6) xoW = .ok ⟨fun _ => 0, 1, 5⟩ ∧ (1 : ℕ) ≠ 0 :=
  ⟨xo_set_state_ok xoSnapC6 xoW rfl (by decide), by norm_num⟩

/-- C6 (amended): ThreeFry32 `seed` / `advance` / `jump` leave
`buffer_pos = 4` and zero buffer words; Xoshiro256StarStar `seed` /
`jump` leave `has_uint32 = 0` and `uinteger = 0`; restoring a state
snapshot does not wipe the cached values but sets them from the
snapshot. -/
theorem cache_invalidation_spec :
    (∀ ek sd ky cn (st st2 : TFState), tf_seed ek sd ky cn st = .ok st2 →
      st2.buffer_pos = 4 ∧ st2.buffer = fun _ => 0) ∧
    (∀ delta (st st2 : TFState), tf_advance delta st = .ok st2 →
      st2.buffer_pos = 4 ∧ st2.buffer = fun _ => 0) ∧
    (∀ k (st st2 : TFState), tf_jump k st = .ok st2 →
      st2.buffer_pos = 4 ∧ st2.buffer = fun _ => 0) ∧
    (∀ w (st : XoState), (xo_seed w st).has_uint32 = 0 ∧ (xo_seed w st).uinteger = 0) ∧
    (∀ jc k (st : XoState), (xo_jump jc k st).has_uint32 = 0 ∧ (xo_jump jc k st).uinteger = 0) ∧
    (∀ d (st st2 : XoState), xo_set_state (.dict d) st = .ok st2 →
      st2.has_uint32 = d.has_uint32 ∧ st2.uinteger = d.uinteger) ∧
    (∀ d (st st2 : TFState), tf_set_state (.dict d) st = .ok st2 →
      st2.buffer = (fun i => d.buffer i % 2 ^ 32) ∧ st2.buffer_pos = d.buffer_pos) := by
  have hadv : ∀ delta (st st2 : TFState), tf_advance delta st = .ok st2 →
      st2.buffer_pos = 4 ∧ st2.buffer = fun _ => 0 := by
    intro delta st st2 h
    unfold tf_advance at h
    cases hia : int_to_array delta 128 32 with
    | none => rw [hia] at h; cases h
    | some w =>
      rw [hia] at h
      injection h with hh
      rw [← hh]
      exact ⟨rfl, rfl⟩
  have hcnt : ∀ cn (st1 st2 : TFState), tf_seed_counter cn st1 = .ok st2 →
      st2.buffer_pos = 4 ∧ st2.buffer = fun _ => 0 := by
    intro cn st1 st2 h
    unfold tf_seed_counter at h
    cases hia : int_to_array (cn.getD 0) 128 32 with
    | none => rw [hia] at h; cases h
    | some cw =>
      rw [hia] at h
      injection h with hh
      rw [← hh]
      exact ⟨rfl, rfl⟩
  refine ⟨fun ek sd ky cn st st2 h => ?_, hadv, fun k st st2 h => hadv _ st st2 h,
          fun w st => ⟨rfl, rfl⟩, fun jc k st => ⟨rfl, rfl⟩,
          fun d st st2 h => ?_, fun d st st2 h => ?_⟩
  · simp only [tf_seed] at h
    split at h
    · cases h
    · split at h
      · exact hcnt cn _ st2 h
      · split at h
        · cases h
        · exact hcnt cn _ st2 h
  · simp only [xo_set_state] at h
    split at h
    · cases h
    · cases hset : xo_set_s d [0, 1, 2, 3] st with
      | error e => rw [hset] at h; cases h
      | ok st1 =>
        rw [hset] at h
        simp only [] at h
        injection h with hh
        rw [← hh]
        exact ⟨rfl, rfl⟩
  · simp only [tf_set_state] at h
    split at h
    · cases h
    · cases hck : tf_set_ctrkey d [0, 1, 2, 3] st with
      | error e => rw [hck] at h; cases h
      | ok st1 =>
        rw [hck] at h
        simp only [] at h
        cases hbuf : tf_set_buffer d [0, 1, 2, 3] st1 with
        | error e => rw [hbuf] at h; cases h
        | ok stb =>
          rw [hbuf] at h
          simp only [] at h
          injection h with hh
          obtain ⟨hrb, hvb, _, _, _⟩ := tf_set_buffer_inv d [0, 1, 2, 3] st1 stb hbuf
          rw [← hh]
          refine ⟨funext fun i => ?_, rfl⟩
          have hin := mem_fin4 i
          have hv := hvb i
          rw [if_pos hin] at hv
          show stb.buffer i = d.buffer i % 2 ^ 32
          rw [hv, Nat.mod_eq_of_lt (hrb i hin)]

/-- Derived key words for the seeding witness. -/
def tfEK : Fin 4 → ℕ := fun _ => 0

/-- The state produced by the C6 seed witness call. -/
def tfSeedW : TFState :=
  ⟨listToFin4 ((List.range (128 / 32)).map (fun i => 0 / 2 ^ (32 * i) % 2 ^ 32)),
   fun i => tfEK i % 2 ^ 32, fun _ => 0, 4⟩

/-- The state produced by the C6 advance witness call. -/
def tfAdvW : TFState :=
  tf_reset_state_variables { tfW with ctr := threefry32_advance_c 5 tfW.ctr }

/-- The state produced by the C6 jump witness call. -/
def tfJumpW : TFState :=
  tf_reset_state_variables { tfW with ctr := threefry32_advance_c (2 * 2 ^ 64) tfW.ctr }

/-- The state produced by restoring `xoSnapC6`. -/
def xoRestW : XoState := ⟨xoSnapC6.s, xoSnapC6.has_uint32, xoSnapC6.uinteger⟩

/-- A ThreeFry32 snapshot with a nonzero buffer for the C6 restore
witness. -/
def tfSnapC6 : TFSnapshot := ⟨"ThreeFry32", fun _ => 1, fun _ => 2, fun _ => 3, 2⟩

/-- The state produced by restoring `tfSnapC6`. -/
def tfRestW : TFState :=
  ⟨tfSnapC6.counter, tfSnapC6.key, tfSnapC6.buffer, tfSnapC6.buffer_pos⟩

/-- Witness for C6: concrete seed / advance / jump / restore calls. -/
theorem cache_invalidation_spec_witness :
    (tf_seed tfEK none none none tfW = .ok tfSeedW ∧
      tfSeedW.buffer_pos = 4 ∧ tfSeedW.buffer = fun _ => 0) ∧
    (tf_advance 5 tfW = .ok tfAdvW ∧
      tfAdvW.buffer_pos = 4 ∧ tfAdvW.buffer = fun _ => 0) ∧
    (tf_jump 2 tfW = .ok tfJumpW ∧
      tfJumpW.buffer_pos = 4 ∧ tfJumpW.buffer = fun _ => 0) ∧
    ((xo_seed (fun _ => 11) xoW).has_uint32 = 0 ∧
      (xo_seed (fun _ => 11) xoW).uinteger = 0) ∧
    ((xo_jump id 2 xoW).has_uint32 = 0 ∧ (xo_jump id 2 xoW).uinteger = 0) ∧
    (xo_set_state (.dict xoSnapC6) xoW = .ok xoRestW ∧
      xoRestW.has_uint32 = xoSnapC6.has_uint32 ∧
      xoRestW.uinteger = xoSnapC6.uinteger) ∧
    (tf_set_state (.dict tfSnapC6) tfW = .ok tfRestW ∧
      tfRestW.buffer = (fun i => tfSnapC6.buffer i % 2 ^ 32) ∧
      tfRestW.buffer_pos = tfSnapC6.buffer_pos) := by
  have h1 : tf_seed tfEK none none none tfW = .ok tfSeedW := rfl
  have h2 : tf_advance 5 tfW = .ok tfAdvW := rfl
  have h3 : tf_jump 2 tfW = .ok tfJumpW := rfl
  have h6 : xo_set_state (.dict xoSnapC6) xoW = .ok xoRestW :=
    xo_set_state_ok xoSnapC6 xoW rfl (by decide)
  have h7 : tf_set_state (.dict tfSnapC6) tfW = .ok tfRestW :=
    tf_set_state_ok tfSnapC6 tfW rfl (by decide) (by decide) (by decide)
  exact ⟨⟨h1, cache_invalidation_spec.1 tfEK none none none tfW tfSeedW h1⟩,
         ⟨h2, cache_invalidation_spec.2.1 5 tfW tfAdvW h2⟩,
         ⟨h3, cache_invalidation_spec.2.2.1 2 tfW tfJumpW h3⟩,
         cache_invalidation_spec.2.2.2.1 (fun _ => 11) xoW,
         cache_invalidation_spec.2.2.2.2.1 id 2 xoW,
         ⟨h6, cache_invalidation_spec.2.2.2.2.2.1 xoSnapC6 xoW xoRestW h6⟩,
         ⟨h7, cache_invalidation_spec.2.2.2.2.2.2 tfSnapC6 tfW tfRestW h7⟩⟩

/-- C7: `MT19937.seed` raises ValueError when a scalar seed exceeds
`2^32 - 1` or is negative, or when an array seed contains such an
element, and the error is raised before any state mutation (the error
payload is the untouched handle state). -/
theorem mt_seed_range_spec :
    (∀ (iba : List ℕ → MTState) (i : ℤ) (st : MTState),
      2 ^ 32 - 1 < i ∨ i < 0 →
      mt_seed iba (.scalar i) st = .error (.valueError, st)) ∧
    (∀ (iba : List ℕ → MTState) (xs : List ℤ) (st : MTState),
      (∃ x ∈ xs, 2 ^ 32 - 1 < x ∨ x < 0) →
      mt_seed iba (.array xs) st = .error (.valueError, st)) := by
  refine ⟨fun iba i st h => ?_, fun iba xs st h => ?_⟩
  · simp only [mt_seed, if_pos h]
  · simp only [mt_seed, if_pos h]

/-- The abstract `mt19937_init_by_array` used in witnesses. -/
def ibaW : List ℕ → MTState := fun _ => mtW2

/-- Witness for C7: scalar `2^32` and array `[5, -1]` both fail with the
state untouched. -/
theorem mt_seed_range_spec_witness :
    ((2 ^ 32 - 1 : ℤ) < 2 ^ 32 ∨ (2 ^ 32 : ℤ) < 0) ∧
    mt_seed ibaW (.scalar (2 ^ 32)) mtW = .error (.valueError, mtW) ∧
    (∃ x ∈ ([5, -1] : List ℤ), 2 ^ 32 - 1 < x ∨ x < 0) ∧
    mt_seed ibaW (.array [5, -1]) mtW = .error (.valueError, mtW) := by
  have h1 : (2 ^ 32 - 1 : ℤ) < 2 ^ 32 ∨ (2 ^ 32 : ℤ) < 0 := by decide
  have h2 : ∃ x ∈ ([5, -1] : List ℤ), 2 ^ 32 - 1 < x ∨ x < 0 := by decide
  exact ⟨h1, mt_seed_range_spec.1 ibaW (2 ^ 32) mtW h1,
         h2, mt_seed_range_spec.2 ibaW [5, -1] mtW h2⟩

/-- C8: `ThreeFry32.seed` with both `seed` and `key` raises ValueError
as its very first step; the error payload carries the handle state
unchanged, so counter, key, buffer and buffer_pos are untouched. -/
theorem tf_seed_conflict_spec (ek : Fin 4 → ℕ) (s k : ℕ) (cn : Option ℕ)
    (st : TFState) :
    tf_seed ek (some s) (some k) cn st = .error (.valueError, st) := by
  simp [tf_seed]

/-- A ThreeFry32 snapshot with `buffer_pos = 7`, outside 0..4, all
words in range. -/
def tfSnapBad : TFSnapshot := ⟨"ThreeFry32", fun _ => 0, fun _ => 0, fun _ => 0, 7⟩

/-- The state obtained by restoring `tfSnapBad`. -/
def tfBadW : TFState :=
  ⟨tfSnapBad.counter, tfSnapBad.key, tfSnapBad.buffer, tfSnapBad.buffer_pos⟩

/-- Counterexample for C9: a snapshot with the out-of-range field
`buffer_pos = 7` is accepted by the ThreeFry32 state setter (and stored
verbatim), not rejected. -/
theorem tf_restore_accepts_out_of_range_cex :
    tf_set_state (.dict tfSnapBad) tfW = .ok tfBadW ∧ tfBadW.buffer_pos = 7 :=
  ⟨tf_set_state_ok tfSnapBad tfW rfl (by decide) (by decide) (by decide), rfl⟩

/-- All words of a ThreeFry32 snapshot fit in 32 bits. -/
def tfSnapInRange (d : TFSnapshot) : Bool :=
  decide (∀ i, d.counter i < 2 ^ 32) && decide (∀ i, d.key i < 2 ^ 32) &&
    decide (∀ i, d.buffer i < 2 ^ 32)

/-- All `s` words of a Xoshiro256StarStar snapshot fit in 64 bits. -/
def xoSnapInRange (d : XoSnapshot) : Bool := decide (∀ i, d.s i < 2 ^ 64)

/-- C9 (amended): restoring a snapshot raises TypeError when the value
is not a dict and ValueError when the `brng` tag differs from the
receiving class.  Words exceeding their width are rejected, but by the
checked Cython conversions rather than explicit validation: an
over-width word raises OverflowError (shown for the first word, whose
failure leaves the state untouched), and a successful restore implies
every word was in range.  There is no semantic range validation: with
in-range words the snapshot is stored exactly, `buffer_pos`,
`has_uint32` and `uinteger` verbatim — `buffer_pos = 7` is accepted. -/
theorem snapshot_restore_validation_spec :
    (∀ st : TFState, tf_set_state .nondict st = .error (.typeError, st)) ∧
    (∀ st : XoState, xo_set_state .nondict st = .error (.typeError, st)) ∧
    (∀ d (st : TFState), d.brng ≠ "ThreeFry32" →
      tf_set_state (.dict d) st = .error (.valueError, st)) ∧
    (∀ d (st : XoState), d.brng ≠ "Xoshiro256StarStar" →
      xo_set_state (.dict d) st = .error (.valueError, st)) ∧
    (∀ d (st : TFState), d.brng = "ThreeFry32" → tfSnapInRange d = true →
      tf_set_state (.dict d) st =
        .ok ⟨d.counter, d.key, d.buffer, d.buffer_pos⟩) ∧
    (∀ d (st : XoState), d.brng = "Xoshiro256StarStar" → xoSnapInRange d = true →
      xo_set_state (.dict d) st = .ok ⟨d.s, d.has_uint32, d.uinteger⟩) ∧
    (∀ d (st st2 : TFState), tf_set_state (.dict d) st = .ok st2 →
      tfSnapInRange d = true) ∧
    (∀ d (st st2 : XoState), xo_set_state (.dict d) st = .ok st2 →
      xoSnapInRange d = true) ∧
    (∀ d (st : TFState), d.brng = "ThreeFry32" → 2 ^ 32 ≤ d.counter 0 →
      tf_set_state (.dict d) st = .error (.overflowError, st)) ∧
    (∀ d (st : XoState), d.brng = "Xoshiro256StarStar" → 2 ^ 64 ≤ d.s 0 →
      xo_set_state (.dict d) st = .error (.overflowError, st)) := by
  refine ⟨fun st => rfl, fun st => rfl, fun d st h => ?_, fun d st h => ?_,
          fun d st h hr => ?_, fun d st h hr => ?_,
          fun d st st2 h => ?_, fun d st st2 h => ?_,
          fun d st h hover => ?_, fun d st h hover => ?_⟩
  · simp only [tf_set_state, if_pos h]
  · simp only [xo_set_state, if_pos h]
  · simp only [tfSnapInRange, Bool.and_eq_true, decide_eq_true_eq] at hr
    exact tf_set_state_ok d st h hr.1.1 hr.1.2 hr.2
  · simp only [xoSnapInRange, decide_eq_true_eq] at hr
    exact xo_set_state_ok d st h hr
  · simp only [tf_set_state] at h
    split at h
    · cases h
    · cases hck : tf_set_ctrkey d [0, 1, 2, 3] st with
      | error e => rw [hck] at h; cases h
      | ok st1 =>
        rw [hck] at h
        simp only [] at h
        cases hbuf : tf_set_buffer d [0, 1, 2, 3] st1 with
        | error e => rw [hbuf] at h; cases h
        | ok stb =>
          obtain ⟨hr1, _, _, _, _⟩ := tf_set_ctrkey_inv d [0, 1, 2, 3] st st1 hck
          obtain ⟨hrb, _, _, _, _⟩ := tf_set_buffer_inv d [0, 1, 2, 3] st1 stb hbuf
          simp only [tfSnapInRange, Bool.and_eq_true, decide_eq_true_eq]
          exact ⟨⟨fun i => (hr1 i (mem_fin4 i)).1, fun i => (hr1 i (mem_fin4 i)).2⟩,
                 fun i => hrb i (mem_fin4 i)⟩
  · simp only [xo_set_state] at h
    split at h
    · cases h
    · cases hset : xo_set_s d [0, 1, 2, 3] st with
      | error e => rw [hset] at h; cases h
      | ok st1 =>
        obtain ⟨hr, _, _, _⟩ := xo_set_s_inv d [0, 1, 2, 3] st st1 hset
        simp only [xoSnapInRange, decide_eq_true_eq]
        exact fun i => hr i (mem_fin4 i)
  · simp only [tf_set_state]
    rw [if_neg (by simp [h])]
    simp only [tf_set_ctrkey]
    rw [if_neg (by omega)]
  · simp only [xo_set_state]
    rw [if_neg (by simp [h])]
    simp only [xo_set_s]
    rw [if_neg (by omega)]

/-- A snapshot with a foreign tag for the C9 witness. -/
def tfSnapWrong : TFSnapshot := ⟨"MT19937", fun _ => 0, fun _ => 0, fun _ => 0, 0⟩

/-- A snapshot with a foreign tag for the C9 witness. -/
def xoSnapWrong : XoSnapshot := ⟨"ThreeFry32", fun _ => 0, 0, 0⟩

/-- A matching-tag ThreeFry32 snapshot whose first counter word exceeds
32 bits, for the C9 OverflowError witness. -/
def tfSnapOver : TFSnapshot := ⟨"ThreeFry32", fun _ => 2 ^ 32 + 3, fun _ => 0, fun _ => 0, 0⟩

/-- A matching-tag Xoshiro snapshot with an over-width `s` word, for the
C9 OverflowError witness. -/
def xoSnapBig : XoSnapshot := ⟨"Xoshiro256StarStar", fun _ => 2 ^ 64 + 3, 2, 9⟩

/-- A matching-tag in-range Xoshiro snapshot for the C9 witness. -/
def xoSnapPos : XoSnapshot := ⟨"Xoshiro256StarStar", fun _ => 4, 1, 6⟩

/-- Witness for C9: wrong tags are rejected; a `buffer_pos = 7` snapshot
is accepted and stored verbatim; over-width words raise OverflowError;
accepted restores imply in-range words. -/
theorem snapshot_restore_validation_spec_witness :
    tf_set_state .nondict tfW = .error (.typeError, tfW) ∧
    xo_set_state .nondict xoW = .error (.typeError, xoW) ∧
    (tfSnapWrong.brng ≠ "ThreeFry32" ∧
      tf_set_state (.dict tfSnapWrong) tfW = .error (.valueError, tfW)) ∧
    (xoSnapWrong.brng ≠ "Xoshiro256StarStar" ∧
      xo_set_state (.dict xoSnapWrong) xoW = .error (.valueError, xoW)) ∧
    (tfSnapBad.brng = "ThreeFry32" ∧ tfSnapInRange tfSnapBad = true ∧
      tf_set_state (.dict tfSnapBad) tfW2 =
        .ok ⟨tfSnapBad.counter, tfSnapBad.key, tfSnapBad.buffer, tfSnapBad.buffer_pos⟩) ∧
    (xoSnapPos.brng = "Xoshiro256StarStar" ∧ xoSnapInRange xoSnapPos = true ∧
      xo_set_state (.dict xoSnapPos) xoW =
        .ok ⟨xoSnapPos.s, xoSnapPos.has_uint32, xoSnapPos.uinteger⟩) ∧
    (tf_set_state (.dict tfSnapBad) tfW2 =
        .ok ⟨tfSnapBad.counter, tfSnapBad.key, tfSnapBad.buffer, tfSnapBad.buffer_pos⟩ ∧
      tfSnapInRange tfSnapBad = true) ∧
    (xo_set_state (.dict xoSnapPos) xoW =
        .ok ⟨xoSnapPos.s, xoSnapPos.has_uint32, xoSnapPos.uinteger⟩ ∧
      xoSnapInRange xoSnapPos = true) ∧
    (tfSnapOver.brng = "ThreeFry32" ∧ 2 ^ 32 ≤ tfSnapOver.counter 0 ∧
      tf_set_state (.dict tfSnapOver) tfW = .error (.overflowError, tfW)) ∧
    (xoSnapBig.brng = "Xoshiro256StarStar" ∧ 2 ^ 64 ≤ xoSnapBig.s 0 ∧
      xo_set_state (.dict xoSnapBig) xoW = .error (.overflowError, xoW)) := by
  have ht : tfSnapWrong.brng ≠ "ThreeFry32" := by decide
  have hx : xoSnapWrong.brng ≠ "Xoshiro256StarStar" := by decide
  have hbr : tfSnapInRange tfSnapBad = true := by decide
  have hpr : xoSnapInRange xoSnapPos = true := by decide
  have hto : (2 : ℕ) ^ 32 ≤ tfSnapOver.counter 0 := by decide
  have hxo2 : (2 : ℕ) ^ 64 ≤ xoSnapBig.s 0 := by decide
  have hok : tf_set_state (.dict tfSnapBad) tfW2 =
      .ok ⟨tfSnapBad.counter, tfSnapBad.key, tfSnapBad.buffer, tfSnapBad.buffer_pos⟩ :=
    snapshot_restore_validation_spec.2.2.2.2.1 tfSnapBad tfW2 rfl hbr
  have hok2 : xo_set_state (.dict xoSnapPos) xoW =
      .ok ⟨xoSnapPos.s, xoSnapPos.has_uint32, xoSnapPos.uinteger⟩ :=
    snapshot_restore_validation_spec.2.2.2.2.2.1 xoSnapPos xoW rfl hpr
  exact ⟨snapshot_restore_validation_spec.1 tfW,
         snapshot_restore_validation_spec.2.1 xoW,
         ⟨ht, snapshot_restore_validation_spec.2.2.1 tfSnapWrong tfW ht⟩,
         ⟨hx, snapshot_restore_validation_spec.2.2.2.1 xoSnapWrong xoW hx⟩,
         ⟨rfl, hbr, hok⟩,
         ⟨rfl, hpr, hok2⟩,
         ⟨hok, snapshot_restore_validation_spec.2.2.2.2.2.2.1 tfSnapBad tfW2 _ hok⟩,
         ⟨hok2, snapshot_restore_validation_spec.2.2.2.2.2.2.2.1 xoSnapPos xoW _ hok2⟩,
         ⟨rfl, hto, snapshot_restore_validation_spec.2.2.2.2.2.2.2.2.1 tfSnapOver tfW rfl hto⟩,
         ⟨rfl, hxo2, snapshot_restore_validation_spec.2.2.2.2.2.2.2.2.2 xoSnapBig xoW rfl hxo2⟩⟩

/-- Counterexample for C10: the state setter applied to the empty tuple
raises IndexError (from the `value[0]` access), not the ValueError the
claim asserts for every non-legacy tuple. -/
theorem mt_set_state_empty_tuple_cex :
    mt_set_state (.tuple []) mtW = .error (.indexError, mtW) ∧
      Err.indexError ≠ Err.valueError :=
  ⟨rfl, by decide⟩

/-- C10 (amended): a tuple `('MT19937', key, pos)` of length 3 or 5 is
converted to the tagged-record form with element 1 as the key and
element 2 as pos; any other nonempty tuple raises ValueError; the empty
tuple raises IndexError from the `value[0]` access; non-dict non-tuple
values raise the type-mismatch TypeError. -/
theorem mt_set_state_tuple_spec :
    (∀ (k : Fin 624 → ℕ) (p : ℕ) (st : MTState),
      mt_set_state (.tuple [.str "MT19937", .arr k, .num p]) st = .ok ⟨k, p⟩) ∧
    (∀ (k : Fin 624 → ℕ) (p : ℕ) (x y : MTVal) (st : MTState),
      mt_set_state (.tuple [.str "MT19937", .arr k, .num p, x, y]) st = .ok ⟨k, p⟩) ∧
    (∀ (e0 : MTVal) (rest : List MTVal) (st : MTState),
      (isMTTag e0 = false ∨
        ((e0 :: rest).length ≠ 3 ∧ (e0 :: rest).length ≠ 5)) →
      mt_set_state (.tuple (e0 :: rest)) st = .error (.valueError, st)) ∧
    (∀ st : MTState, mt_set_state (.tuple []) st = .error (.indexError, st)) ∧
    (∀ st : MTState, mt_set_state .other st = .error (.typeError, st)) := by
  refine ⟨fun k p st => rfl, fun k p x y st => rfl, fun e0 rest st h => ?_,
          fun st => rfl, fun st => rfl⟩
  simp only [mt_set_state, List.head?]
  rw [if_pos h]

/-- A concrete 624-word key for the C10 witness. -/
def mtKeyW : Fin 624 → ℕ := fun _ => 5

/-- Witness for C10: the two legacy tuple shapes, a wrong-tag tuple, the
empty tuple, and a non-dict non-tuple value. -/
theorem mt_set_state_tuple_spec_witness :
    mt_set_state (.tuple [.str "MT19937", .arr mtKeyW, .num 7]) mtW2 = .ok ⟨mtKeyW, 7⟩ ∧
    mt_set_state (.tuple [.str "MT19937", .arr mtKeyW, .num 7, .num 0, .num 0]) mtW2 =
      .ok ⟨mtKeyW, 7⟩ ∧
    ((isMTTag (.str "bogus") = false ∨
        (([MTVal.str "bogus"] : List MTVal).length ≠ 3 ∧
          ([MTVal.str "bogus"] : List MTVal).length ≠ 5)) ∧
      mt_set_state (.tuple [.str "bogus"]) mtW2 = .error (.valueError, mtW2)) ∧
    mt_set_state (.tuple []) mtW2 = .error (.indexError, mtW2) ∧
    mt_set_state .other mtW2 = .error (.typeError, mtW2) := by
  have hb : isMTTag (.str "bogus") = false := by decide
  exact ⟨mt_set_state_tuple_spec.1 mtKeyW 7 mtW2,
         mt_set_state_tuple_spec.2.1 mtKeyW 7 (.num 0) (.num 0) mtW2,
         ⟨Or.inl hb, mt_set_state_tuple_spec.2.2.1 (.str "bogus") [] mtW2 (Or.inl hb)⟩,
         mt_set_state_tuple_spec.2.2.2.1 mtW2,
         mt_set_state_tuple_spec.2.2.2.2 mtW2⟩
